import Mathlib

/-!
Verification of the simple-http-loadbalancer core against its specification.

The Go sources are shallowly embedded: Go structs become Lean structures,
methods become functions from the receiver (plus explicit clock arguments
replacing `time.Now()`) to the updated receiver, and Go's `error` results
become `Option`/sum values.  Durations and timestamps are modelled as
integers (nanoseconds); `float64` token counts are modelled as rationals,
matching the spec's "real-valued accumulation".
-/

namespace LB

/-! ### internal/errors (errors.go) -/

/-- Error codes of `LoadBalancerError` (errors.go). -/
inductive ErrorCode
  | backendUnavailable
  | configInvalid
  | rateLimitExceeded
  | circuitOpen
  | timeout
  | sslCertificate
deriving DecidableEq, Repr

/-- A Go `error` value as seen by the pipeline: either a `LoadBalancerError`
carrying a code, or any other error (`fmt.Errorf`, etc.). -/
inductive GoError
  | lbError (code : ErrorCode)
  | plain
deriving DecidableEq, Repr

/-! ### internal/circuitbreaker (circuitbreaker.go)

Timestamps and durations are integers (Go nanoseconds).  `time.Now()`
becomes an explicit `now` argument; `time.Since(x) > d` becomes
`now - x > d`. -/

/-- One nanosecond-denominated second, as in Go's `time.Second`. -/
def second : Int := 1000000000

/-- The breaker states (Go `State` iota: Closed, HalfOpen, Open). -/
inductive CBState
  | StateClosed
  | StateHalfOpen
  | StateOpen
deriving DecidableEq, Repr

/-- The `CircuitBreaker` struct (circuitbreaker.go). -/
structure CircuitBreaker where
  failures : Int
  threshold : Int
  timeout : Int
  lastFailure : Int
  state : CBState
  halfOpenMax : Int
  successCount : Int
deriving DecidableEq, Repr

/-- The breaker `Config` struct. -/
structure CBConfig where
  Threshold : Int
  Timeout : Int
  HalfOpenMax : Int
deriving DecidableEq, Repr

namespace CircuitBreaker

/-- `circuitbreaker.New`: applies defaults for non-positive config fields and
starts Closed with zero counters (Go zero time modelled as 0). -/
def New (config : CBConfig) : CircuitBreaker :=
  let threshold := if config.Threshold ≤ 0 then 5 else config.Threshold
  let timeout := if config.Timeout ≤ 0 then 10 * second else config.Timeout
  let halfOpenMax := if config.HalfOpenMax ≤ 0 then 3 else config.HalfOpenMax
  { failures := 0
    threshold := threshold
    timeout := timeout
    lastFailure := 0
    state := CBState.StateClosed
    halfOpenMax := halfOpenMax
    successCount := 0 }

/-- `AllowRequest`: Closed and HalfOpen admit; Open admits only when
`now - lastFailure > timeout` (strict, as in `time.Since(cb.lastFailure) >
cb.timeout`), in which case the state moves to HalfOpen with the success
count reset. -/
def AllowRequest (cb : CircuitBreaker) (now : Int) : Bool × CircuitBreaker :=
  match cb.state with
  | CBState.StateClosed => (true, cb)
  | CBState.StateOpen =>
      if now - cb.lastFailure > cb.timeout then
        (true, { cb with state := CBState.StateHalfOpen, successCount := 0 })
      else
        (false, cb)
  | CBState.StateHalfOpen => (true, cb)

/-- `RecordResult`: `failed = true` models a non-nil `err` argument. -/
def RecordResult (cb : CircuitBreaker) (failed : Bool) (now : Int) : CircuitBreaker :=
  if failed then
    let cb := { cb with failures := cb.failures + 1, lastFailure := now }
    if cb.state = CBState.StateClosed ∧ cb.failures ≥ cb.threshold then
      { cb with state := CBState.StateOpen }
    else if cb.state = CBState.StateHalfOpen then
      { cb with state := CBState.StateOpen }
    else
      cb
  else
    match cb.state with
    | CBState.StateHalfOpen =>
        let cb := { cb with successCount := cb.successCount + 1 }
        if cb.successCount ≥ cb.halfOpenMax then
          { cb with state := CBState.StateClosed, failures := 0 }
        else
          cb
    | CBState.StateClosed => { cb with failures := 0 }
    | CBState.StateOpen => cb

/-- `Execute`: gate on `AllowRequest`; if admitted, run the operation
(whose result is `opResult`) and record it; otherwise return a
`CircuitOpen` error without running the operation. -/
def Execute (cb : CircuitBreaker) (now : Int) (opResult : Option GoError) :
    Option GoError × CircuitBreaker :=
  let gate := cb.AllowRequest now
  if gate.1 then
    (opResult, gate.2.RecordResult opResult.isSome now)
  else
    (some (GoError.lbError ErrorCode.circuitOpen), gate.2)

/-- `Reset`: forces Closed and zeroes `failures` and `successCount`
(`lastFailure` is left as-is, exactly as in the source). -/
def Reset (cb : CircuitBreaker) : CircuitBreaker :=
  { cb with failures := 0, state := CBState.StateClosed, successCount := 0 }

end CircuitBreaker

/-! ### internal/ratelimit (token bucket and sliding window)

Go's `float64` token arithmetic is modelled with rationals and its
timestamps with rational seconds (`now.Sub(lastRefill).Seconds()` becomes
`now - lastRefill`). -/

/-- The `TokenBucket` struct. -/
structure TokenBucket where
  rate : ℚ
  capacity : ℚ
  tokens : ℚ
  lastRefill : ℚ
deriving DecidableEq, Repr

/-- The token-bucket `Config` struct. -/
structure TBConfig where
  Rate : ℚ
  Capacity : ℚ
deriving DecidableEq, Repr

namespace TokenBucket

/-- `ratelimit.New`: defaults rate to 100 and capacity to the rate when
non-positive; the bucket starts full, with `lastRefill` the creation
time. -/
def New (config : TBConfig) (now : ℚ) : TokenBucket :=
  let rate := if config.Rate ≤ 0 then 100 else config.Rate
  let capacity := if config.Capacity ≤ 0 then rate else config.Capacity
  { rate := rate, capacity := capacity, tokens := capacity, lastRefill := now }

/-- `refill`: add `elapsed * rate` tokens, clamp to capacity, stamp `now`. -/
def refill (tb : TokenBucket) (now : ℚ) : TokenBucket :=
  let tokens := tb.tokens + (now - tb.lastRefill) * tb.rate
  let tokens := if tokens > tb.capacity then tb.capacity else tokens
  { tb with tokens := tokens, lastRefill := now }

/-- `Allow`: refill lazily, then admit (consuming one token) iff at least one
token is available; `false` models the `RateLimitExceeded` error. -/
def Allow (tb : TokenBucket) (now : ℚ) : Bool × TokenBucket :=
  let tb := tb.refill now
  if tb.tokens ≥ 1 then
    (true, { tb with tokens := tb.tokens - 1 })
  else
    (false, tb)

end TokenBucket

/-- Result of a sliding-window `Allow` call.  `panicked` models the Go
runtime panic raised by writing to a nil map. -/
inductive AllowOutcome
  | allowed
  | rejected
  | panicked
deriving DecidableEq, Repr

/-- The `WindowRateLimiter` struct.  The Go `map[int64]int` is modelled as
an association list of (timestamp, count); `none` models a nil map (after
`Stop`). -/
structure WindowRateLimiter where
  window : Int
  limit : Int
  requests : Option (List (Int × Int))
  cleanupTime : Int
deriving DecidableEq, Repr

/-- The sliding-window `WindowConfig` struct. -/
structure WindowConfig where
  Window : Int
  Limit : Int
  CleanupTime : Int
deriving DecidableEq, Repr

namespace WindowRateLimiter

/-- `NewWindow`: defaults (window 1 s, limit 100, cleanup 1 min) for
non-positive fields; the map starts empty (non-nil). -/
def NewWindow (config : WindowConfig) : WindowRateLimiter :=
  let window := if config.Window ≤ 0 then second else config.Window
  let limit := if config.Limit ≤ 0 then 100 else config.Limit
  let cleanupTime := if config.CleanupTime ≤ 0 then 60 * second else config.CleanupTime
  { window := window, limit := limit, requests := some [], cleanupTime := cleanupTime }

/-- Count of requests recorded at or after `windowStart` (the loop over the
map in `Allow`; iterating a nil map visits nothing). -/
def countFrom (m : List (Int × Int)) (windowStart : Int) : Int :=
  (m.filter (fun p => windowStart ≤ p.1)).foldl (fun acc p => acc + p.2) 0

/-- `wrl.requests[bucket]++` on an association list: bump the entry if
present, else append a fresh entry with count 1. -/
def mapInc (m : List (Int × Int)) (k : Int) : List (Int × Int) :=
  if m.any (fun p => p.1 = k) then
    m.map (fun p => if p.1 = k then (p.1, p.2 + 1) else p)
  else
    m ++ [(k, 1)]

/-- `Allow`: count the in-window entries; reject at or above the limit;
otherwise record the request, which panics when the map is nil. -/
def Allow (wrl : WindowRateLimiter) (now : Int) : AllowOutcome × WindowRateLimiter :=
  let windowStart := now - wrl.window
  let count := match wrl.requests with
    | none => 0
    | some m => countFrom m windowStart
  if count ≥ wrl.limit then
    (AllowOutcome.rejected, wrl)
  else
    match wrl.requests with
    | none => (AllowOutcome.panicked, wrl)
    | some m => (AllowOutcome.allowed, { wrl with requests := some (mapInc m now) })

/-- `Stop`: drops the map by assigning nil (it is not emptied). -/
def Stop (wrl : WindowRateLimiter) : WindowRateLimiter :=
  { wrl with requests := none }

end WindowRateLimiter

/-! ### internal/balancer/algorithm (weighted.go)

Go `int`/`int64` weights are modelled as `Int`; the atomic loads/stores
under the selector's writer lock are plain reads/writes. -/

/-- The `WeightedBackend` struct. -/
structure WeightedBackend where
  ID : String
  Weight : Int
  CurrentWeight : Int
  EffectiveWeight : Int
deriving DecidableEq, Repr

/-- The `WeightedRoundRobin` struct (the mutex is not part of the data). -/
structure WeightedRoundRobin where
  backends : List WeightedBackend
deriving DecidableEq, Repr

namespace WeightedRoundRobin

/-- `NewWeightedRoundRobin`. -/
def NewWeightedRoundRobin : WeightedRoundRobin := ⟨[]⟩

/-- `Add`: coerce non-positive weights to 1 and append a backend whose
effective weight equals its weight (current weight zero). -/
def Add (wrr : WeightedRoundRobin) (id : String) (weight : Int) : WeightedRoundRobin :=
  let weight := if weight ≤ 0 then 1 else weight
  ⟨wrr.backends ++ [{ ID := id, Weight := weight, CurrentWeight := 0, EffectiveWeight := weight }]⟩

/-- `Remove`: drop the first backend with the given id (if any). -/
def Remove (wrr : WeightedRoundRobin) (id : String) : WeightedRoundRobin :=
  match wrr.backends.findIdx? (fun b => b.ID = id) with
  | none => wrr
  | some i => ⟨wrr.backends.take i ++ wrr.backends.drop (i + 1)⟩

/-- Tail of the running-maximum scan in `Next`: `best`/`cur` are the index
and current weight of the incumbent `maxWeightBackend`, `i` the index of
the next element. -/
def argmaxAux (best : Nat) (cur : Int) (i : Nat) : List Int → Nat
  | [] => best
  | x :: rest => if x > cur then argmaxAux i x (i + 1) rest else argmaxAux best cur (i + 1) rest

/-- Index of the first maximal element of a non-empty list (the running
`maxWeightBackend` comparison in `Next` uses a strict `>`, so earlier
elements win ties). -/
def firstMaxIdx : List Int → Nat
  | [] => 0
  | x :: rest => argmaxAux 0 x 1 rest

/-- The loop of `Next` after the lock: every backend's current weight is
bumped by its effective weight before the comparison against the incumbent
maximum (which was bumped in its own earlier iteration), so the selection
is the first maximum of the bumped list. -/
def bumped (l : List WeightedBackend) : List WeightedBackend :=
  l.map (fun b => { b with CurrentWeight := b.CurrentWeight + b.EffectiveWeight })

/-- `totalWeight` accumulated in the loop: the sum of effective weights. -/
def totalWeight (l : List WeightedBackend) : Int :=
  (l.map (fun b => b.EffectiveWeight)).sum

/-- Decrement the current weight of the `j`-th backend by `t` (the
post-selection `atomic.AddInt64(&maxWeightBackend.CurrentWeight,
-totalWeight)`). -/
def decWinner (l : List WeightedBackend) (j : Nat) (t : Int) : List WeightedBackend :=
  l.mapIdx (fun i b => if i = j then { b with CurrentWeight := b.CurrentWeight - t } else b)

/-- `Next`: returns `none` on an empty set; otherwise bumps all current
weights, selects the first maximum (ties to insertion order), decrements
the winner by the total effective weight, and returns the updated winner
record together with the updated selector state. -/
def Next (wrr : WeightedRoundRobin) : Option WeightedBackend × WeightedRoundRobin :=
  match wrr.backends with
  | [] => (none, wrr)
  | _ :: _ =>
      let l := bumped wrr.backends
      let j := firstMaxIdx (l.map (fun b => b.CurrentWeight))
      let t := totalWeight wrr.backends
      let l' := decWinner l j t
      (l'.get? j, { wrr with backends := l' })

/-- `UpdateWeight`: set the weight (coerced to at least 1) and the effective
weight of the first backend with the given id; the Bool reports whether a
backend was found. -/
def UpdateWeight (wrr : WeightedRoundRobin) (id : String) (weight : Int) : Bool × WeightedRoundRobin :=
  match wrr.backends.findIdx? (fun b => b.ID = id) with
  | none => (false, wrr)
  | some i =>
      let w := if weight ≤ 0 then 1 else weight
      (true,
        ⟨wrr.backends.mapIdx (fun k b =>
          if k = i then { b with Weight := w, EffectiveWeight := w } else b)⟩)

/-- `AdjustWeight`: add `delta` to the effective weight of the first backend
with the given id, clamped to `[1, 2 * Weight]`. -/
def AdjustWeight (wrr : WeightedRoundRobin) (id : String) (delta : Int) : Bool × WeightedRoundRobin :=
  match wrr.backends.findIdx? (fun b => b.ID = id) with
  | none => (false, wrr)
  | some i =>
      (true,
        ⟨wrr.backends.mapIdx (fun k b =>
          if k = i then
            let newWeight := b.EffectiveWeight + delta
            let newWeight := if newWeight ≤ 0 then 1 else newWeight
            let newWeight := if newWeight > b.Weight * 2 then b.Weight * 2 else newWeight
            { b with EffectiveWeight := newWeight }
          else b)⟩)

/-- `Reset`: zero every current weight and restore every effective weight to
the nominal weight. -/
def Reset (wrr : WeightedRoundRobin) : WeightedRoundRobin :=
  ⟨wrr.backends.map (fun b => { b with CurrentWeight := 0, EffectiveWeight := b.Weight })⟩

/-- `GetBackends`: a value copy of the backend list. -/
def GetBackends (wrr : WeightedRoundRobin) : List WeightedBackend :=
  wrr.backends

end WeightedRoundRobin

/-! ### internal/balancer (balancer.go, rollout.go)

`url.Parse` is an external collaborator: it is abstracted as a `parse`
predicate saying which URL strings parse, and a parsed URL is identified
with its string (`b.URL.String()` is the identity).  The reverse-proxied
upstream exchange of one request is abstracted as an `Upstream` outcome:
the response status observed by the wrapped writer, or the 30 s timeout
firing first. -/

/-- Outcome of forwarding one request to the origin. -/
inductive Upstream
  | ok (status : Nat)
  | timedOut
deriving DecidableEq, Repr

/-- The `Backend` struct (atomics flattened to plain fields; the
`httputil.ReverseProxy` carries no state we model). -/
structure Backend where
  URL : String
  Healthy : Bool
  ActiveConns : Int
  TotalRequests : Nat
  CircuitBreaker : CircuitBreaker
  RateLimiter : TokenBucket
deriving DecidableEq, Repr

/-- The `LoadBalancer` struct (mutex, metrics handles, config and SSL
manager omitted; metric increments are returned by the pipeline model). -/
structure LoadBalancer where
  backends : List Backend
  wrr : WeightedRoundRobin
deriving DecidableEq, Repr

/-- A fresh backend record as built in `updateBackends`: healthy, a breaker
with threshold 5 / timeout 10 s / half-open max 2, and a 100/100 token
bucket created at `now`. -/
def newBackendRecord (url : String) (now : ℚ) : Backend :=
  { URL := url
    Healthy := true
    ActiveConns := 0
    TotalRequests := 0
    CircuitBreaker := CircuitBreaker.New { Threshold := 5, Timeout := 10 * second, HalfOpenMax := 2 }
    RateLimiter := TokenBucket.New { Rate := 100, Capacity := 100 } now }

/-- The loop of `updateBackends`: parse each URL in order; on failure stop
with a `ConfigInvalid` error (the selector keeps the entries already
added); on success accumulate the new record and add `backend-<i>` with
weight 1 to the selector. -/
def updateAux (parse : String → Bool) (now : ℚ) :
    Nat → WeightedRoundRobin → List Backend → List String →
    Option ErrorCode × WeightedRoundRobin × List Backend
  | _, wrr, acc, [] => (none, wrr, acc)
  | idx, wrr, acc, u :: rest =>
      if parse u then
        updateAux parse now (idx + 1)
          (wrr.Add ("backend-" ++ toString idx) 1)
          (acc ++ [newBackendRecord u now]) rest
      else
        (some ErrorCode.configInvalid, wrr, acc)

/-- `updateBackends`: on success replace `lb.backends` with the new records
(the selector, however, is only ever appended to); on a parse failure
return the error, leaving `lb.backends` as it was (the selector retains the
additions made before the failure, as in the source). -/
def updateBackends (parse : String → Bool) (now : ℚ) (lb : LoadBalancer) (urls : List String) :
    Option ErrorCode × LoadBalancer :=
  match updateAux parse now 0 lb.wrr [] urls with
  | (none, wrr, newB) => (none, { backends := newB, wrr := wrr })
  | (some e, wrr, _) => (some e, { lb with wrr := wrr })

/-- The error-to-status switch at the end of `ServeHTTP`: `CircuitOpen` maps
to 503, `RateLimitExceeded` to 429, and every other error — including the
`TIMEOUT`-coded one, for which the switch has no case — to the default 502. -/
def statusForError (e : GoError) : Nat :=
  match e with
  | GoError.lbError ErrorCode.circuitOpen => 503
  | GoError.lbError ErrorCode.rateLimitExceeded => 429
  | GoError.lbError _ => 502
  | GoError.plain => 502

/-- The closure passed to `Execute` in `ServeHTTP`: gate on the backend's
rate limiter (propagating its error before any counter moves), then count
`requests_total`, forward, and classify — a 5xx status or the 30 s timeout
are failures that also bump `errors_total` inside the closure.  Returns the
closure's error, the updated bucket, and the `requests_total` /
`errors_total` increments performed inside the closure. -/
def serveClosure (tb : TokenBucket) (nowQ : ℚ) (upstream : Upstream) :
    Option GoError × TokenBucket × Nat × Nat :=
  let gate := tb.Allow nowQ
  if gate.1 then
    match upstream with
    | Upstream.ok status =>
        if 500 ≤ status then
          (some GoError.plain, gate.2, 1, 1)
        else
          (none, gate.2, 1, 0)
    | Upstream.timedOut =>
        (some (GoError.lbError ErrorCode.timeout), gate.2, 1, 1)
  else
    (some (GoError.lbError ErrorCode.rateLimitExceeded), gate.2, 0, 0)

/-- What one `ServeHTTP` call did: the status written by `http.Error` on a
non-success branch (`none` when the proxied response was delivered
untouched), and the total increments of the two counters. -/
structure ServeResult where
  wroteStatus : Option Nat
  requestsTotal : Nat
  errorsTotal : Nat
deriving DecidableEq, Repr

/-- `ServeHTTP` for one request against a selected backend (`none` models
`nextBackend()` returning nil): run the breaker-gated closure and map any
resulting error through the status switch, bumping `errors_total` once more
on that path.  Returns the observable result and the updated breaker and
bucket. -/
def ServeHTTP (selected : Option (CircuitBreaker × TokenBucket)) (now : Int) (nowQ : ℚ)
    (upstream : Upstream) : ServeResult × Option (CircuitBreaker × TokenBucket) :=
  match selected with
  | none => ({ wroteStatus := some 503, requestsTotal := 0, errorsTotal := 1 }, none)
  | some (cb, tb) =>
      let gate := cb.AllowRequest now
      if gate.1 then
        let cl := serveClosure tb nowQ upstream
        let cb2 := gate.2.RecordResult cl.1.isSome now
        match cl.1 with
        | some e =>
            ({ wroteStatus := some (statusForError e)
               requestsTotal := cl.2.2.1
               errorsTotal := cl.2.2.2 + 1 },
             some (cb2, cl.2.1))
        | none =>
            ({ wroteStatus := none, requestsTotal := cl.2.2.1, errorsTotal := cl.2.2.2 },
             some (cb2, cl.2.1))
      else
        ({ wroteStatus := some (statusForError (GoError.lbError ErrorCode.circuitOpen))
           requestsTotal := 0
           errorsTotal := 1 },
         some (gate.2, tb))

/-- Rollout/rollback error kinds (`fmt.Errorf` validation error, the
context's cancellation error, and an install failure). -/
inductive RolloutError
  | emptyBackends
  | cancelled
  | installFailed
deriving DecidableEq, Repr

/-- The `RolloutConfig` struct (the interval only controls sleeping and has
no observable effect in the model). -/
structure RolloutConfig where
  NewBackends : List String
  BatchSize : Int
  Interval : Int
deriving DecidableEq, Repr

/-- The batch loop of `Rollout`: at each iteration the context is polled
(`cancelled i` says whether `ctx.Done()` is ready when the loop variable is
`i`); on cancellation the current state is returned as-is with the
context's error; on an install failure the captured snapshot is
reinstalled (best effort) and an error returned.  The fuel argument bounds
the iteration count (the loop advances `i` by at least 1, so
`newBackends.length` suffices). -/
def rolloutFrom (parse : String → Bool) (now : ℚ) (cancelled : Nat → Bool)
    (oldBackends newBackends : List String) (batch : Nat) :
    Nat → Nat → LoadBalancer → Option RolloutError × LoadBalancer
  | 0, _, lb => (none, lb)
  | fuel + 1, i, lb =>
      if i < newBackends.length then
        if cancelled i then
          (some RolloutError.cancelled, lb)
        else
          match updateBackends parse now lb (newBackends.take (min (i + batch) newBackends.length)) with
          | (some _, lb1) =>
              (some RolloutError.installFailed, (updateBackends parse now lb1 oldBackends).2)
          | (none, lb1) =>
              rolloutFrom parse now cancelled oldBackends newBackends batch fuel (i + batch) lb1
      else
        (none, lb)

/-- `Rollout`: validate the input, default the batch size, capture the
current backend URLs as the rollback snapshot, and run the batch loop. -/
def Rollout (parse : String → Bool) (now : ℚ) (cancelled : Nat → Bool)
    (lb : LoadBalancer) (config : RolloutConfig) : Option RolloutError × LoadBalancer :=
  if config.NewBackends.isEmpty then
    (some RolloutError.emptyBackends, lb)
  else
    let batch := (if config.BatchSize ≤ 0 then 1 else config.BatchSize).toNat
    let oldBackends := lb.backends.map (fun b => b.URL)
    rolloutFrom parse now cancelled oldBackends config.NewBackends batch
      config.NewBackends.length 0 lb

/-! ### Derived definitions used by the statements -/

/-- Record a failure (`RecordResult` with a non-nil error) at each time in
the list, in order. -/
def recordFailures (cb : CircuitBreaker) : List Int → CircuitBreaker
  | [] => cb
  | t :: ts => recordFailures (cb.RecordResult true t) ts

/-- Record a success (`RecordResult` with a nil error) at each time in the
list, in order. -/
def recordSuccesses (cb : CircuitBreaker) : List Int → CircuitBreaker
  | [] => cb
  | t :: ts => recordSuccesses (cb.RecordResult false t) ts

/-- A parse predicate accepting every URL (all inputs of interest parse). -/
def pTrue : String → Bool := fun _ => true

/-- A load balancer before any install. -/
def lbEmpty : LoadBalancer :=
  { backends := [], wrr := WeightedRoundRobin.NewWeightedRoundRobin }

/-- A load balancer holding the single backend `http://a`. -/
def lbA : LoadBalancer := (updateBackends pTrue 0 lbEmpty ["http://a"]).2

/-- The S2 breaker of the spec: threshold 3, open-timeout 100, half-open
max 2, brought to Open by three failures (last at time 3). -/
def cbS2 : CircuitBreaker :=
  recordFailures (CircuitBreaker.New { Threshold := 3, Timeout := 100, HalfOpenMax := 2 }) [1, 2, 3]

/-- A breaker opened by a single failure at time 0 (threshold 1,
open-timeout 10). -/
def cbOpen10 : CircuitBreaker :=
  (CircuitBreaker.New { Threshold := 1, Timeout := 10, HalfOpenMax := 1 }).RecordResult true 0

/-- A full 100/100 token bucket created at time 0. -/
def tbFull : TokenBucket := TokenBucket.New { Rate := 100, Capacity := 100 } 0

/-- The selector state after one `Next` call. -/
def nextState (w : WeightedRoundRobin) : WeightedRoundRobin := (w.Next).2

/-- The selector state after `n` `Next` calls. -/
def stateAfter (w : WeightedRoundRobin) : Nat → WeightedRoundRobin
  | 0 => w
  | n + 1 => nextState (stateAfter w n)

/-- The id selected by the `(n+1)`-st `Next` call on `w` (`none` when the
set is empty). -/
def selAt (w : WeightedRoundRobin) (n : Nat) : Option String :=
  ((stateAfter w n).Next.1).map (fun b => b.ID)

/-- How many of the `len` consecutive `Next` calls starting after `start`
prior calls select the backend with the given id. -/
def countSel (w : WeightedRoundRobin) (id : String) : Nat → Nat → Nat
  | _, 0 => 0
  | start, len + 1 =>
      (if selAt w start = some id then 1 else 0) + countSel w id (start + 1) len

/-- The fresh selector of scenario S1: weights (5, 3, 2) in insertion
order a, b, c. -/
def w532 : WeightedRoundRobin :=
  ((WeightedRoundRobin.NewWeightedRoundRobin.Add "a" 5).Add "b" 3).Add "c" 2

/-- A selector state reached through the exported API alone: two backends
added at weight 10, one `Next` call, then both weights updated to 1.  It
holds backends with positive effective weights (1, 1) but its current
weights are (-10, 10). -/
def wMut : WeightedRoundRobin :=
  ((((((WeightedRoundRobin.NewWeightedRoundRobin.Add "a" 10).Add "b" 10).Next).2).UpdateWeight
      "a" 1).2.UpdateWeight "b" 1).2

/-! ## Theorems -/

/-- Composing `stateAfter` across a sum of call counts. -/
theorem stateAfter_add (w : WeightedRoundRobin) (a b : Nat) :
    stateAfter w (a + b) = stateAfter (stateAfter w a) b := by
  induction b with
  | zero => rfl
  | succ b ih => rw [Nat.add_succ]; simp [stateAfter, ih]

/-- If the state returns to `w` after `W` calls, the selection stream is
`W`-periodic. -/
theorem selAt_period (w : WeightedRoundRobin) (W : Nat) (hW : stateAfter w W = w)
    (u : Nat) : selAt w (u + W) = selAt w u := by
  unfold selAt
  rw [Nat.add_comm, stateAfter_add, hW]

/-- Shifting a window by one period does not change its selection count. -/
theorem countSel_shift (w : WeightedRoundRobin) (W : Nat) (hW : stateAfter w W = w)
    (id : String) : ∀ (len m : Nat), countSel w id (m + W) len = countSel w id m len := by
  intro len
  induction len with
  | zero => intro m; rfl
  | succ len ih =>
      intro m
      show (if selAt w (m + W) = some id then 1 else 0) + countSel w id (m + W + 1) len
            = (if selAt w m = some id then 1 else 0) + countSel w id (m + 1) len
      rw [selAt_period w W hW m]
      have h : m + W + 1 = m + 1 + W := by omega
      rw [h, ih (m + 1)]

/-- Splitting a selection-count window. -/
theorem countSel_split (w : WeightedRoundRobin) (id : String) :
    ∀ (a m b : Nat), countSel w id m (a + b) = countSel w id m a + countSel w id (m + a) b := by
  intro a
  induction a with
  | zero => intro m b; simp [countSel]
  | succ a ih =>
      intro m b
      have h1 : a + 1 + b = a + b + 1 := by omega
      rw [h1]
      show (if selAt w m = some id then 1 else 0) + countSel w id (m + 1) (a + b)
            = ((if selAt w m = some id then 1 else 0) + countSel w id (m + 1) a)
              + countSel w id (m + (a + 1)) b
      rw [ih (m + 1) b]
      have h2 : m + 1 + a = m + (a + 1) := by omega
      rw [h2, Nat.add_assoc]

/-- Over a periodic stream, every window of one period has the same
selection count. -/
theorem countSel_window_const (w : WeightedRoundRobin) (W : Nat) (hW : stateAfter w W = w)
    (id : String) : ∀ m, countSel w id m W = countSel w id 0 W := by
  intro m
  induction m with
  | zero => rfl
  | succ m ih =>
      have h1 : countSel w id m (W + 1) = countSel w id m W + countSel w id (m + W) 1 :=
        countSel_split w id W m 1
      have h2 : countSel w id m (1 + W) = countSel w id m 1 + countSel w id (m + 1) W :=
        countSel_split w id 1 m W
      have h3 : countSel w id (m + W) 1 = countSel w id m 1 := countSel_shift w W hW id 1 m
      have h4 : W + 1 = 1 + W := by omega
      rw [h4] at h1
      rw [h1, h3] at h2
      omega

/-- C3 counterexample: `wMut` is a WRR selector holding backends with
positive integer effective weights (1, 1) summing to W = 2, reached
through the exported API (Add, Next, UpdateWeight) with no mutation after
this point; yet its next 2 = 1·W consecutive `Next` calls select backend
`b` twice and backend `a` zero times, not exactly w_i = 1 time each as
the claim requires. -/
theorem C3_mutated_selector_counterexample :
    (wMut.backends.map (fun b => b.EffectiveWeight)) = [1, 1] ∧
    countSel wMut "a" 0 2 = 0 ∧ countSel wMut "b" 0 2 = 2 := by decide

/-- C3 amended: for every WRR selector whose `Next` schedule is periodic
with period `W` (the state returns to itself after `W` calls — true of
freshly built selectors such as the (5, 3, 2) one, whose state returns
after W = 10 calls), any `k·W` consecutive calls, at any offset into the
stream, select each backend exactly `k` times its per-period count; in
particular any 100 consecutive calls on the fresh (5, 3, 2) selector
select (a, b, c) exactly (50, 30, 20) times, ties broken by insertion
order. -/
theorem C3_periodic_window_exact :
    (∀ (w : WeightedRoundRobin) (W : Nat), stateAfter w W = w →
      ∀ (id : String) (m k : Nat), countSel w id m (k * W) = k * countSel w id 0 W) ∧
    (∀ m : Nat, countSel w532 "a" m 100 = 50 ∧ countSel w532 "b" m 100 = 30 ∧
      countSel w532 "c" m 100 = 20) := by
  have main : ∀ (w : WeightedRoundRobin) (W : Nat), stateAfter w W = w →
      ∀ (id : String) (m k : Nat), countSel w id m (k * W) = k * countSel w id 0 W := by
    intro w W hW id m k
    induction k generalizing m with
    | zero => simp [countSel]
    | succ k ih =>
        have h1 : (k + 1) * W = W + k * W := by ring
        rw [h1, countSel_split w id W m (k * W), ih (m + W)]
        rw [countSel_window_const w W hW id m]
        ring
  refine ⟨main, ?_⟩
  intro m
  have h10 : stateAfter w532 10 = w532 := by decide
  refine ⟨?_, ?_, ?_⟩
  · have h := main w532 10 h10 "a" m 10
    have ha : countSel w532 "a" 0 10 = 5 := by decide
    rw [ha] at h
    simpa using h
  · have h := main w532 10 h10 "b" m 10
    have hb : countSel w532 "b" 0 10 = 3 := by decide
    rw [hb] at h
    simpa using h
  · have h := main w532 10 h10 "c" m 10
    have hc : countSel w532 "c" 0 10 = 2 := by decide
    rw [hc] at h
    simpa using h

/-- Witness for C3's amended theorem: the fresh (5, 3, 2) selector is
10-periodic, and a window of 2·10 calls starting at offset 3 selects `a`
exactly twice its per-period count. -/
theorem C3_periodic_window_exact_witness :
    stateAfter w532 10 = w532 ∧
    countSel w532 "a" 3 (2 * 10) = 2 * countSel w532 "a" 0 10 :=
  ⟨by decide, C3_periodic_window_exact.1 w532 10 (by decide) "a" 3 2⟩

/-- Unfolding lemma for `refill` (the local variable written out). -/
theorem refill_eq (tb : TokenBucket) (now : ℚ) :
    tb.refill now =
      { tb with
        tokens := if tb.tokens + (now - tb.lastRefill) * tb.rate > tb.capacity
                  then tb.capacity else tb.tokens + (now - tb.lastRefill) * tb.rate,
        lastRefill := now } := rfl

/-- Unfolding lemma for the bucket's `Allow`. -/
theorem Allow_eq (tb : TokenBucket) (now : ℚ) :
    tb.Allow now =
      if (tb.refill now).tokens ≥ 1 then
        (true, { tb.refill now with tokens := (tb.refill now).tokens - 1 })
      else (false, tb.refill now) := rfl

/-- The full 100/100 bucket admits a request one second after creation,
leaving 99 tokens. -/
theorem tbFull_Allow :
    tbFull.Allow 1 = (true, { rate := 100, capacity := 100, tokens := 99, lastRefill := 1 }) := by
  rw [Allow_eq, refill_eq]
  norm_num [tbFull, TokenBucket.New]

/-- C1: the error-to-status switch in `ServeHTTP` has no case for the
`TIMEOUT` code, so a request whose pipeline outcome is the timeout error
falls into the default branch and is answered 502 Bad Gateway — not the
504 required by the spec's mapping (and asserted by the repository's own
integration test).  End to end: a fresh backend whose upstream exchange
times out is answered 502, with `requests_total` and `errors_total` moving
as in the source. -/
theorem C1_timeout_answered_502 :
    statusForError (GoError.lbError ErrorCode.circuitOpen) = 503 ∧
    statusForError (GoError.lbError ErrorCode.rateLimitExceeded) = 429 ∧
    statusForError GoError.plain = 502 ∧
    statusForError (GoError.lbError ErrorCode.timeout) = 502 ∧
    (ServeHTTP
        (some (CircuitBreaker.New { Threshold := 5, Timeout := 10 * second, HalfOpenMax := 2 },
               tbFull))
        0 1 Upstream.timedOut).1 =
      { wroteStatus := some 502, requestsTotal := 1, errorsTotal := 2 } := by
  refine ⟨rfl, rfl, rfl, rfl, ?_⟩
  simp [ServeHTTP, serveClosure, CircuitBreaker.AllowRequest, CircuitBreaker.New,
        tbFull_Allow, statusForError]

/-- C6: before each admission test the lazy refill sets the token count to
exactly `min(capacity, tokens₀ + Δt·rate)`, and both the refill and the
subsequent admission test keep the count within `[0, capacity]`. -/
theorem C6_refill_exact_and_bounded (tb : TokenBucket) (now : ℚ)
    (h0 : 0 ≤ tb.tokens) (hc : tb.tokens ≤ tb.capacity)
    (ht : tb.lastRefill ≤ now) (hr : 0 < tb.rate) :
    (tb.refill now).tokens = min tb.capacity (tb.tokens + (now - tb.lastRefill) * tb.rate) ∧
    0 ≤ (tb.refill now).tokens ∧ (tb.refill now).tokens ≤ tb.capacity ∧
    0 ≤ (tb.Allow now).2.tokens ∧ (tb.Allow now).2.tokens ≤ tb.capacity := by
  rw [Allow_eq, refill_eq]
  simp only [min_def]
  split_ifs <;> simp_all <;> and_intros <;>
    nlinarith [mul_nonneg (sub_nonneg.mpr ht) hr.le]

/-- Witness for C6 at a concrete bucket (the full 100/100 bucket, queried
one second later). -/
theorem C6_refill_exact_and_bounded_witness :
    ((0 : ℚ) ≤ tbFull.tokens ∧ tbFull.tokens ≤ tbFull.capacity ∧
      tbFull.lastRefill ≤ 1 ∧ 0 < tbFull.rate) ∧
    ((tbFull.refill 1).tokens = min tbFull.capacity (tbFull.tokens + (1 - tbFull.lastRefill) * tbFull.rate) ∧
      0 ≤ (tbFull.refill 1).tokens ∧ (tbFull.refill 1).tokens ≤ tbFull.capacity ∧
      0 ≤ (tbFull.Allow 1).2.tokens ∧ (tbFull.Allow 1).2.tokens ≤ tbFull.capacity) := by
  have h0 : (0 : ℚ) ≤ tbFull.tokens := by decide
  have hc : tbFull.tokens ≤ tbFull.capacity := by decide
  have ht : tbFull.lastRefill ≤ (1 : ℚ) := by decide
  have hr : (0 : ℚ) < tbFull.rate := by decide
  exact ⟨⟨h0, hc, ht, hr⟩, C6_refill_exact_and_bounded tbFull 1 h0 hc ht hr⟩

/-- C7 counterexample: at the boundary `now - last_failure = open_timeout`
(breaker opened at time 0 with open-timeout 10, queried at time 10) the
elapsed time is ≥ the timeout, yet the request is rejected — the source
uses a strict `>`, so admission is not inclusive at equality as the claim
states. -/
theorem C7_boundary_equality_rejected :
    cbOpen10.state = CBState.StateOpen ∧
    cbOpen10.timeout ≤ (10 : Int) - cbOpen10.lastFailure ∧
    (cbOpen10.AllowRequest 10).1 = false := by decide

/-- C7 amended: in state Open a request is admitted iff
`now - last_failure > open_timeout` (strict, so rejected at equality), and
an admission transitions the breaker to HalfOpen with the half-open
success count reset to zero. -/
theorem C7_open_admission_strict (cb : CircuitBreaker) (now : Int)
    (h : cb.state = CBState.StateOpen) :
    ((cb.AllowRequest now).1 = true ↔ cb.timeout < now - cb.lastFailure) ∧
    (cb.timeout < now - cb.lastFailure →
      (cb.AllowRequest now).2.state = CBState.StateHalfOpen ∧
      (cb.AllowRequest now).2.successCount = 0) := by
  have e : cb.AllowRequest now =
      if now - cb.lastFailure > cb.timeout
      then (true, { cb with state := CBState.StateHalfOpen, successCount := 0 })
      else (false, cb) := by
    simp [CircuitBreaker.AllowRequest, h]
  rw [e]
  by_cases hgt : now - cb.lastFailure > cb.timeout
  · rw [if_pos hgt]
    exact ⟨by simpa using hgt, fun _ => ⟨rfl, rfl⟩⟩
  · rw [if_neg hgt]
    exact ⟨by simpa using hgt, fun hlt => absurd hlt hgt⟩

/-- Witness for C7's amended theorem: the breaker opened at time 0 with
open-timeout 10, queried at time 11. -/
theorem C7_open_admission_strict_witness :
    cbOpen10.state = CBState.StateOpen ∧
    (((cbOpen10.AllowRequest 11).1 = true ↔ cbOpen10.timeout < 11 - cbOpen10.lastFailure) ∧
      (cbOpen10.timeout < 11 - cbOpen10.lastFailure →
        (cbOpen10.AllowRequest 11).2.state = CBState.StateHalfOpen ∧
        (cbOpen10.AllowRequest 11).2.successCount = 0)) :=
  ⟨by decide, C7_open_admission_strict cbOpen10 11 (by decide)⟩

/-- C10: `Stop` sets the request map to nil (`none`) rather than emptying
it, and a subsequent `Allow` whose in-window count (necessarily 0) is
below the limit reaches the map write and panics instead of returning an
admission result. -/
theorem C10_stop_nils_map_allow_panics (wrl : WindowRateLimiter) (now : Int)
    (h : 0 < wrl.limit) :
    wrl.Stop.requests = none ∧
    (wrl.Stop.Allow now).1 = AllowOutcome.panicked := by
  refine ⟨rfl, ?_⟩
  have hnot : ¬ (0 ≥ wrl.limit) := by omega
  simp [WindowRateLimiter.Allow, WindowRateLimiter.Stop, hnot]

/-- Recording failures on a Closed breaker that stays short of the
threshold keeps it Closed and accumulates the consecutive-failure count. -/
theorem recordFailures_closed : ∀ (ts : List Int) (cb : CircuitBreaker),
    cb.state = CBState.StateClosed →
    cb.failures + ts.length < cb.threshold →
    (recordFailures cb ts).state = CBState.StateClosed ∧
    (recordFailures cb ts).failures = cb.failures + ts.length := by
  intro ts
  induction ts with
  | nil => intro cb h _; simpa [recordFailures] using h
  | cons t rest ih =>
      intro cb h hlt
      have hne : ¬ (cb.failures + 1 ≥ cb.threshold) := by
        simp only [List.length_cons] at hlt; push_cast at hlt; omega
      have e : cb.RecordResult true t =
          { cb with failures := cb.failures + 1, lastFailure := t } := by
        simp [CircuitBreaker.RecordResult, h, hne]
      have := ih ({ cb with failures := cb.failures + 1, lastFailure := t })
        (by simpa using h)
        (by show cb.failures + 1 + rest.length < cb.threshold
            simp only [List.length_cons] at hlt; push_cast at hlt ⊢; omega)
      simp only [recordFailures, e]
      refine ⟨this.1, ?_⟩
      rw [this.2]
      simp only [List.length_cons]; push_cast; ring

/-- Failures recorded on an Open breaker leave it Open (and do not touch
the configuration fields). -/
theorem recordFailures_open : ∀ (ts : List Int) (cb : CircuitBreaker),
    cb.state = CBState.StateOpen →
    (recordFailures cb ts).state = CBState.StateOpen ∧
    (recordFailures cb ts).timeout = cb.timeout ∧
    (recordFailures cb ts).halfOpenMax = cb.halfOpenMax := by
  intro ts
  induction ts with
  | nil => intro cb h; simpa [recordFailures] using h
  | cons t rest ih =>
      intro cb h
      have e : cb.RecordResult true t =
          { cb with failures := cb.failures + 1, lastFailure := t } := by
        simp [CircuitBreaker.RecordResult, h]
      simp only [recordFailures, e]
      exact ih _ (by simpa using h)

/-- Enough consecutive failures to cross the threshold take a Closed
breaker to Open. -/
theorem recordFailures_opens : ∀ (ts : List Int) (cb : CircuitBreaker),
    cb.state = CBState.StateClosed →
    cb.failures < cb.threshold →
    cb.threshold ≤ cb.failures + ts.length →
    (recordFailures cb ts).state = CBState.StateOpen ∧
    (recordFailures cb ts).timeout = cb.timeout ∧
    (recordFailures cb ts).halfOpenMax = cb.halfOpenMax := by
  intro ts
  induction ts with
  | nil =>
      intro cb h hf hle
      simp only [List.length_nil, Nat.cast_zero, add_zero] at hle
      omega
  | cons t rest ih =>
      intro cb h hf hle
      by_cases hc : cb.failures + 1 ≥ cb.threshold
      · have e : cb.RecordResult true t =
            { cb with failures := cb.failures + 1, lastFailure := t,
                      state := CBState.StateOpen } := by
          simp [CircuitBreaker.RecordResult, h, hc]
        simp only [recordFailures, e]
        exact recordFailures_open rest _ rfl
      · have e : cb.RecordResult true t =
            { cb with failures := cb.failures + 1, lastFailure := t } := by
          simp [CircuitBreaker.RecordResult, h, hc]
        simp only [recordFailures, e]
        refine ih _ (by simpa using h) (by show cb.failures + 1 < cb.threshold; omega) ?_
        show cb.threshold ≤ cb.failures + 1 + rest.length
        simp only [List.length_cons] at hle; push_cast at hle ⊢; omega

/-- Successes on a Closed breaker keep it Closed and zero the failure
counter (left untouched only when no success is recorded). -/
theorem recordSuccesses_closed0 : ∀ (ts : List Int) (cb : CircuitBreaker),
    cb.state = CBState.StateClosed →
    (recordSuccesses cb ts).state = CBState.StateClosed ∧
    (recordSuccesses cb ts).failures = (if ts.isEmpty then cb.failures else 0) := by
  intro ts
  induction ts with
  | nil => intro cb h; simpa [recordSuccesses] using h
  | cons t rest ih =>
      intro cb h
      have e : cb.RecordResult false t = { cb with failures := 0 } := by
        simp [CircuitBreaker.RecordResult, h]
      simp only [recordSuccesses, e]
      have := ih ({ cb with failures := 0 }) (by simpa using h)
      rcases this with ⟨h1, h2⟩
      refine ⟨h1, ?_⟩
      rw [h2]
      cases rest <;> simp

/-- Enough consecutive successes in HalfOpen close the breaker with the
failure counter zeroed. -/
theorem recordSuccesses_halfOpen : ∀ (ts : List Int) (cb : CircuitBreaker),
    cb.state = CBState.StateHalfOpen →
    cb.successCount < cb.halfOpenMax →
    cb.halfOpenMax ≤ cb.successCount + ts.length →
    (recordSuccesses cb ts).state = CBState.StateClosed ∧
    (recordSuccesses cb ts).failures = 0 := by
  intro ts
  induction ts with
  | nil =>
      intro cb h hlt hle
      simp only [List.length_nil, Nat.cast_zero, add_zero] at hle
      omega
  | cons t rest ih =>
      intro cb h hlt hle
      by_cases hc : cb.successCount + 1 ≥ cb.halfOpenMax
      · have e : cb.RecordResult false t =
            { cb with successCount := cb.successCount + 1,
                      state := CBState.StateClosed, failures := 0 } := by
          simp [CircuitBreaker.RecordResult, h, hc]
        simp only [recordSuccesses, e]
        have := recordSuccesses_closed0 rest
          ({ cb with successCount := cb.successCount + 1,
                     state := CBState.StateClosed, failures := 0 }) rfl
        refine ⟨this.1, ?_⟩
        rw [this.2]
        cases rest <;> simp
      · have e : cb.RecordResult false t =
            { cb with successCount := cb.successCount + 1 } := by
          simp [CircuitBreaker.RecordResult, h, hc]
        simp only [recordSuccesses, e]
        refine ih _ (by simpa using h)
          (by show cb.successCount + 1 < cb.halfOpenMax; omega) ?_
        show cb.halfOpenMax ≤ cb.successCount + 1 + rest.length
        simp only [List.length_cons] at hle; push_cast at hle ⊢; omega

/-- C2: for a breaker built with positive threshold, open-timeout and
half-open max: exactly `threshold` consecutive failures (and no fewer)
take the fresh Closed breaker to Open; once the open-timeout has elapsed
since the last failure the next request is admitted and puts the breaker
in HalfOpen with the success count reset; and `half_open_max` consecutive
successes from there close it with the failure counter at zero. -/
theorem C2_breaker_lifecycle
    (thr tmo hom : Int) (hthr : 0 < thr) (htmo : 0 < tmo) (hhom : 0 < hom)
    (ts : List Int) (hts : (ts.length : Int) = thr)
    (now : Int) (ss : List Int) (hss : (ss.length : Int) = hom) :
    (recordFailures (CircuitBreaker.New { Threshold := thr, Timeout := tmo, HalfOpenMax := hom }) ts).state
        = CBState.StateOpen ∧
    (∀ pre : List Int, (pre.length : Int) < thr →
      (recordFailures (CircuitBreaker.New { Threshold := thr, Timeout := tmo, HalfOpenMax := hom }) pre).state
        = CBState.StateClosed) ∧
    (tmo < now - (recordFailures (CircuitBreaker.New { Threshold := thr, Timeout := tmo, HalfOpenMax := hom }) ts).lastFailure →
      ((recordFailures (CircuitBreaker.New { Threshold := thr, Timeout := tmo, HalfOpenMax := hom }) ts).AllowRequest now).1 = true ∧
      ((recordFailures (CircuitBreaker.New { Threshold := thr, Timeout := tmo, HalfOpenMax := hom }) ts).AllowRequest now).2.state
        = CBState.StateHalfOpen ∧
      ((recordFailures (CircuitBreaker.New { Threshold := thr, Timeout := tmo, HalfOpenMax := hom }) ts).AllowRequest now).2.successCount = 0 ∧
      (recordSuccesses (((recordFailures (CircuitBreaker.New { Threshold := thr, Timeout := tmo, HalfOpenMax := hom }) ts).AllowRequest now).2) ss).state
        = CBState.StateClosed ∧
      (recordSuccesses (((recordFailures (CircuitBreaker.New { Threshold := thr, Timeout := tmo, HalfOpenMax := hom }) ts).AllowRequest now).2) ss).failures = 0) := by
  have h1 : ¬ (thr ≤ 0) := by omega
  have h2 : ¬ (tmo ≤ 0) := by omega
  have h3 : ¬ (hom ≤ 0) := by omega
  have hNew : CircuitBreaker.New { Threshold := thr, Timeout := tmo, HalfOpenMax := hom } =
      { failures := 0, threshold := thr, timeout := tmo, lastFailure := 0,
        state := CBState.StateClosed, halfOpenMax := hom, successCount := 0 } := by
    simp [CircuitBreaker.New, h1, h2, h3]
  rw [hNew]
  set cb0 : CircuitBreaker :=
    { failures := 0, threshold := thr, timeout := tmo, lastFailure := 0,
      state := CBState.StateClosed, halfOpenMax := hom, successCount := 0 } with hcb0
  have ht0 : cb0.timeout = tmo := rfl
  have hm0 : cb0.halfOpenMax = hom := rfl
  have hopen := recordFailures_opens ts cb0 rfl (by simp [hcb0]; omega)
    (by simp [hcb0]; omega)
  refine ⟨hopen.1, ?_, ?_⟩
  · intro pre hpre
    exact (recordFailures_closed pre cb0 rfl (by simp [hcb0]; omega)).1
  · intro helapsed
    set cbO := recordFailures cb0 ts with hcbO
    have eAllow : cbO.AllowRequest now =
        (true, { cbO with state := CBState.StateHalfOpen, successCount := 0 }) := by
      have : now - cbO.lastFailure > cbO.timeout := by
        rw [hopen.2.1, ht0]; omega
      simp [CircuitBreaker.AllowRequest, hopen.1, this]
    rw [eAllow]
    have hrec := recordSuccesses_halfOpen ss
      ({ cbO with state := CBState.StateHalfOpen, successCount := 0 }) rfl
      (by show (0 : Int) < cbO.halfOpenMax; rw [hopen.2.2, hm0]; omega)
      (by show cbO.halfOpenMax ≤ 0 + (ss.length : Int); rw [hopen.2.2, hm0]; omega)
    exact ⟨rfl, rfl, rfl, hrec.1, hrec.2⟩

/-- Witness for C2 at the spec's S2 parameters: threshold 3, open-timeout
100, half-open max 2; failures at times 1, 2, 3; the admitted probe at
time 204; two successes. -/
theorem C2_breaker_lifecycle_witness :
    ((0 : Int) < 3 ∧ (0 : Int) < 100 ∧ (0 : Int) < 2 ∧
      ((([1, 2, 3] : List Int).length : Int) = 3) ∧
      ((([205, 206] : List Int).length : Int) = 2)) ∧
    (recordFailures (CircuitBreaker.New { Threshold := 3, Timeout := 100, HalfOpenMax := 2 }) [1, 2, 3]).state
        = CBState.StateOpen ∧
    (recordFailures (CircuitBreaker.New { Threshold := 3, Timeout := 100, HalfOpenMax := 2 }) [1, 2]).state
        = CBState.StateClosed ∧
    (((recordFailures (CircuitBreaker.New { Threshold := 3, Timeout := 100, HalfOpenMax := 2 }) [1, 2, 3]).AllowRequest 204).1 = true ∧
      ((recordFailures (CircuitBreaker.New { Threshold := 3, Timeout := 100, HalfOpenMax := 2 }) [1, 2, 3]).AllowRequest 204).2.state
        = CBState.StateHalfOpen ∧
      ((recordFailures (CircuitBreaker.New { Threshold := 3, Timeout := 100, HalfOpenMax := 2 }) [1, 2, 3]).AllowRequest 204).2.successCount = 0 ∧
      (recordSuccesses (((recordFailures (CircuitBreaker.New { Threshold := 3, Timeout := 100, HalfOpenMax := 2 }) [1, 2, 3]).AllowRequest 204).2) [205, 206]).state
        = CBState.StateClosed ∧
      (recordSuccesses (((recordFailures (CircuitBreaker.New { Threshold := 3, Timeout := 100, HalfOpenMax := 2 }) [1, 2, 3]).AllowRequest 204).2) [205, 206]).failures = 0) := by
  have H := C2_breaker_lifecycle 3 100 2 (by decide) (by decide) (by decide)
    [1, 2, 3] (by decide) 204 [205, 206] (by decide)
  exact ⟨⟨by decide, by decide, by decide, by decide, by decide⟩,
    H.1, H.2.1 [1, 2] (by decide), H.2.2 (by decide)⟩

/-- C9 counterexample: a request rejected by an Open breaker (opened at
time 0 with open-timeout 10, request at time 5) is answered 503 but does
not increment `requests_total` — the increment sits inside the admitted
closure after the rate-limit gate, not on entry of step 4 as claimed. -/
theorem C9_rejected_request_not_counted :
    (ServeHTTP (some (cbOpen10, tbFull)) 5 1 (Upstream.ok 200)).1.wroteStatus = some 503 ∧
    (ServeHTTP (some (cbOpen10, tbFull)) 5 1 (Upstream.ok 200)).1.requestsTotal = 0 := by
  decide

/-- C9 amended: `requests_total` is incremented exactly when both the
breaker and the rate limiter admit the request (so breaker and limiter
rejections are not counted), while `errors_total` is incremented (at least
once) exactly on the non-success branches. -/
theorem C9_counters_follow_admission (cb : CircuitBreaker) (tb : TokenBucket)
    (now : Int) (nowQ : ℚ) (upstream : Upstream) :
    (ServeHTTP (some (cb, tb)) now nowQ upstream).1.requestsTotal
        = (if ((cb.AllowRequest now).1 && (tb.Allow nowQ).1) then 1 else 0) ∧
    min 1 (ServeHTTP (some (cb, tb)) now nowQ upstream).1.errorsTotal
        = (if (ServeHTTP (some (cb, tb)) now nowQ upstream).1.wroteStatus.isSome then 1 else 0) := by
  by_cases hg : (cb.AllowRequest now).1 = true
  · by_cases ha : (tb.Allow nowQ).1 = true
    · cases upstream with
      | ok status =>
          by_cases hs : 500 ≤ status
          · simp [ServeHTTP, serveClosure, hg, ha, hs]
          · simp [ServeHTTP, serveClosure, hg, ha, hs]
      | timedOut => simp [ServeHTTP, serveClosure, hg, ha]
    · rw [Bool.not_eq_true] at ha
      simp [ServeHTTP, serveClosure, hg, ha]
  · rw [Bool.not_eq_true] at hg
    simp [ServeHTTP, serveClosure, hg]

/-- C4: installing `["http://a"]` and then `["http://b"]` leaves the live
backend set at exactly the new record, but the selector is never cleared:
after the second install it holds two entries (both named `backend-0`)
instead of exactly one entry per new record. -/
theorem C4_selector_not_rebuilt :
    (updateBackends pTrue 0 (updateBackends pTrue 0 lbEmpty ["http://a"]).2 ["http://b"]).2.backends.map
        (fun b => b.URL) = ["http://b"] ∧
    (updateBackends pTrue 0 (updateBackends pTrue 0 lbEmpty ["http://a"]).2 ["http://b"]).2.wrr.backends.map
        (fun b => b.ID) = ["backend-0", "backend-0"] := by
  decide

/-- C5 counterexample: rolling out `[http://b, http://c]` (batch 1) over
the live set `[http://a]` with the context cancelled before the second
batch returns the cancellation error but leaves `[http://b]` live — the
pre-rollout snapshot `[http://a]` is not restored. -/
theorem C5_cancel_no_restore :
    (Rollout pTrue 0 (fun i => decide (1 ≤ i)) lbA
        { NewBackends := ["http://b", "http://c"], BatchSize := 1, Interval := 100 }).1
      = some RolloutError.cancelled ∧
    (Rollout pTrue 0 (fun i => decide (1 ≤ i)) lbA
        { NewBackends := ["http://b", "http://c"], BatchSize := 1, Interval := 100 }).2.backends.map
        (fun b => b.URL) = ["http://b"] ∧
    lbA.backends.map (fun b => b.URL) = ["http://a"] := by
  decide

/-- C5 amended: when the rollout loop finds the context cancelled it
returns the cancellation error immediately with the load balancer exactly
as the preceding batches left it — no restore of the snapshot is
attempted (the snapshot is reinstalled only on an install failure). -/
theorem C5_cancel_returns_current_set (parse : String → Bool) (now : ℚ)
    (cancelled : Nat → Bool) (oldBackends newBackends : List String) (batch : Nat)
    (fuel i : Nat) (lb : LoadBalancer)
    (hi : i < newBackends.length) (hc : cancelled i = true) :
    rolloutFrom parse now cancelled oldBackends newBackends batch (fuel + 1) i lb
      = (some RolloutError.cancelled, lb) := by
  simp [rolloutFrom, hi, hc]

/-- Witness for C5's amended theorem: the second batch of the concrete
rollout of `[http://b, http://c]`, cancelled at loop index 1. -/
theorem C5_cancel_returns_current_set_witness :
    ((1 : Nat) < (["http://b", "http://c"] : List String).length ∧
      (fun i => decide (1 ≤ i)) 1 = true) ∧
    rolloutFrom pTrue 0 (fun i => decide (1 ≤ i)) ["http://a"] ["http://b", "http://c"] 1 2 1 lbA
      = (some RolloutError.cancelled, lbA) :=
  ⟨⟨by decide, by decide⟩,
   C5_cancel_returns_current_set pTrue 0 (fun i => decide (1 ≤ i)) ["http://a"]
     ["http://b", "http://c"] 1 1 1 lbA (by decide) (by decide)⟩

/-- C8 counterexample: with `[http://a]` live, installing the same list
again (`install(current)`) keeps the backend URLs but grows the selector
from one entry to two, so the load balancer's observable state changes —
`install(current)` is not a no-op. -/
theorem C8_install_current_not_noop :
    lbA.wrr.backends.map (fun b => b.ID) = ["backend-0"] ∧
    (updateBackends pTrue 0 lbA ["http://a"]).2.backends.map (fun b => b.URL)
        = lbA.backends.map (fun b => b.URL) ∧
    (updateBackends pTrue 0 lbA ["http://a"]).2.wrr.backends.map (fun b => b.ID)
        = ["backend-0", "backend-0"] := by
  decide

/-- C8 amended: `Reset` on an already-reset WRR selector (all current
weights 0, effective weights at nominal) or an already-reset breaker
(Closed, zero counters) leaves the state unchanged; the `install(current)`
half of the claim is refuted by the counterexample. -/
theorem C8_reset_idempotent (w : WeightedRoundRobin) (cb : CircuitBreaker)
    (hw : w.backends.all (fun b => b.CurrentWeight == 0 && b.EffectiveWeight == b.Weight) = true)
    (hf : cb.failures = 0) (hst : cb.state = CBState.StateClosed) (hsc : cb.successCount = 0) :
    w.Reset = w ∧ cb.Reset = cb := by
  constructor
  · cases w with
    | mk bs =>
        simp only [WeightedRoundRobin.Reset, WeightedRoundRobin.mk.injEq]
        rw [List.all_eq_true] at hw
        have : ∀ b ∈ bs, (fun b => { b with CurrentWeight := 0, EffectiveWeight := b.Weight }) b = b := by
          intro b hb
          have := hw b hb
          simp only [Bool.and_eq_true, beq_iff_eq] at this
          cases b
          simp_all
        calc bs.map _ = bs.map id := List.map_congr_left this
      _ = bs := List.map_id bs
  · cases cb
    simp_all [CircuitBreaker.Reset]

/-- Witness for C8's amended theorem: a fresh one-backend selector and a
freshly built breaker. -/
theorem C8_reset_idempotent_witness :
    ((WeightedRoundRobin.NewWeightedRoundRobin.Add "a" 2).backends.all
        (fun b => b.CurrentWeight == 0 && b.EffectiveWeight == b.Weight) = true ∧
      (CircuitBreaker.New { Threshold := 1, Timeout := 1, HalfOpenMax := 1 }).failures = 0 ∧
      (CircuitBreaker.New { Threshold := 1, Timeout := 1, HalfOpenMax := 1 }).state = CBState.StateClosed ∧
      (CircuitBreaker.New { Threshold := 1, Timeout := 1, HalfOpenMax := 1 }).successCount = 0) ∧
    ((WeightedRoundRobin.NewWeightedRoundRobin.Add "a" 2).Reset
        = WeightedRoundRobin.NewWeightedRoundRobin.Add "a" 2 ∧
      (CircuitBreaker.New { Threshold := 1, Timeout := 1, HalfOpenMax := 1 }).Reset
        = CircuitBreaker.New { Threshold := 1, Timeout := 1, HalfOpenMax := 1 }) :=
  ⟨⟨by decide, by decide, by decide, by decide⟩,
   C8_reset_idempotent (WeightedRoundRobin.NewWeightedRoundRobin.Add "a" 2)
     (CircuitBreaker.New { Threshold := 1, Timeout := 1, HalfOpenMax := 1 })
     (by decide) (by decide) (by decide) (by decide)⟩

/-- Witness for C10: a freshly built sliding-window limiter (limit 10),
stopped, then asked at time 5. -/
theorem C10_stop_nils_map_allow_panics_witness :
    0 < (WindowRateLimiter.NewWindow { Window := 100, Limit := 10, CleanupTime := 100 }).limit ∧
    ((WindowRateLimiter.NewWindow { Window := 100, Limit := 10, CleanupTime := 100 }).Stop.requests = none ∧
      ((WindowRateLimiter.NewWindow { Window := 100, Limit := 10, CleanupTime := 100 }).Stop.Allow 5).1 =
        AllowOutcome.panicked) :=
  ⟨by decide,
   C10_stop_nils_map_allow_panics
     (WindowRateLimiter.NewWindow { Window := 100, Limit := 10, CleanupTime := 100 }) 5 (by decide)⟩

end LB
